import Mathlib

/-!
Verification development for the lingua translation service
(tiered resolution pipeline + self-extending dictionary mechanism).

The TypeScript sources are shallowly embedded: pure functions become Lean
functions; the KV-backed state of the Learned Word Ledger becomes an explicit
state record threaded through the operations; external calls (KV cache,
Wiktionary fetch, AI inference, GitHub API) become oracle parameters; machine
floats for confidences become exact rationals; JavaScript truthiness of the
`x || d` defaulting idiom is modelled explicitly (empty string and zero are
falsy).
-/

/-! ## JavaScript-idiom helpers -/

/-- JS `x || d` for an optional string: `undefined` and `""` are falsy. -/
def jsOrStr (x : Option String) (d : String) : String :=
  match x with
  | some s => if s = "" then d else s
  | none => d

/-- JS `x || d` for an optional number: `undefined` and `0` are falsy. -/
def jsOrQ (x : Option ℚ) (d : ℚ) : ℚ :=
  match x with
  | some c => if c = 0 then d else c
  | none => d

/-- JS `x || d` for an optional natural number: `undefined` and `0` are falsy. -/
def jsOrNat (x : Option Nat) (d : Nat) : Nat :=
  match x with
  | some n => if n = 0 then d else n
  | none => d

/-- JS truthiness of an optional string (`undefined` and `""` are falsy). -/
def jsStrTruthy (x : Option String) : Bool :=
  match x with
  | some s => s ≠ ""
  | none => false

/-- ASCII whitespace, the characters matched by the `\s` class that occur in
the service's inputs. -/
def isJsWs (c : Char) : Bool :=
  c = ' ' || c = '\t' || c = '\n' || c = '\r' ||
  c = Char.ofNat 11 || c = Char.ofNat 12

/-- Strip leading whitespace (one side of JS `String.trim`). -/
def dropWs (l : List Char) : List Char := l.dropWhile isJsWs

/-- JS `String.trim` on a character list. -/
def trimWs (l : List Char) : List Char := ((dropWs l).reverse.dropWhile isJsWs).reverse

/-- JS `s.trim()`. -/
def trimStr (s : String) : String := ⟨trimWs s.data⟩

/-- JS `s.toLowerCase()` (ASCII case fold suffices for the inputs used). -/
def lowerStr (s : String) : String := ⟨s.data.map Char.toLower⟩

/-- JS `s.substring(0, n)`. -/
def takeStr (n : Nat) (s : String) : String := ⟨s.data.take n⟩

/-- The word-key normalization `word.toLowerCase().trim()` used across the
ledger and dictionary code. -/
def jsNormalize (w : String) : String := trimStr (lowerStr w)

/-- JS `arr.slice(-n)`: the last `n` elements. -/
def takeLast (n : Nat) (l : List String) : List String := l.drop (l.length - n)

/-! ## Learned Word Ledger — data model (src/src/lib/learnedWords.ts) -/

/-- `LearnedWord` record; `translations` is the JS object as a partial map. -/
structure LearnedWordR where
  word : String
  sourceLanguage : String
  translations : String → Option String
  detectedPos : Option String
  firstSeen : String
  seenCount : Nat
  lastSeen : String
  confidence : ℚ
  contexts : Option (List String)
  source : Option String

/-- `LearningStats`. -/
structure LearningStatsR where
  totalLearned : Nat
  pendingCount : Nat
  lastSyncToRepo : Option String
  lastPRNumber : Option Nat
  isProcessing : Bool
deriving DecidableEq

/-- `LearningConfig`. -/
structure LearningConfigR where
  prThreshold : Nat
  maxBulkSize : Nat
  maxWordsPerPR : Nat
  autoTrigger : Bool
  minConfidence : ℚ
deriving DecidableEq

/-- `DEFAULT_CONFIG`. -/
def DEFAULT_CONFIG : LearningConfigR :=
  { prThreshold := 10, maxBulkSize := 1000, maxWordsPerPR := 500,
    autoTrigger := true, minConfidence := 7/10 }

/-- The LEARNED_WORDS_KV contents, structured: `word:{w}` entries, the
`queue:pending` array, `meta:stats`, and `meta:config` (already merged over
`DEFAULT_CONFIG`, as `getConfig` returns it). -/
structure LWState where
  words : String → Option LearnedWordR
  queue : List String
  stats : LearningStatsR
  config : LearningConfigR

/-- `kv.put('word:'+k, v)`. -/
def putWord (st : LWState) (k : String) (v : LearnedWordR) : LWState :=
  { st with words := fun k' => if k' = k then some v else st.words k' }

/-- `getLearnedWord`: lookup under the normalized key. -/
def getLearnedWord (st : LWState) (w : String) : Option LearnedWordR :=
  st.words (jsNormalize w)

/-- `getStats`. -/
def getStats (st : LWState) : LearningStatsR := st.stats

/-- `getConfig`. -/
def getConfig (st : LWState) : LearningConfigR := st.config

/-- `updateStats` with a pendingCount update. -/
def setPendingCount (st : LWState) (n : Nat) : LWState :=
  { st with stats := { st.stats with pendingCount := n } }

/-- `addToPendingQueue`: append if absent, then update `pendingCount` to the
queue length. -/
def addToPendingQueue (st : LWState) (w : String) : LWState :=
  if st.queue.contains w then st
  else
    let q := st.queue ++ [w]
    setPendingCount { st with queue := q } q.length

/-- `markProcessing`. -/
def markProcessing (st : LWState) : LWState :=
  { st with stats := { st.stats with isProcessing := true } }

/-- `clearPendingQueue`. -/
def clearPendingQueue (st : LWState) (prNumber : Nat) (now : String) : LWState :=
  { st with
    queue := [],
    stats := { st.stats with
      pendingCount := 0, lastSyncToRepo := some now,
      lastPRNumber := some prNumber, isProcessing := false } }

/-- JS object spread `{...old, ...new}` on translation maps: incoming keys
overwrite same-language keys. -/
def mergeTranslations (old new : String → Option String) : String → Option String :=
  fun k => match new k with
    | some v => some v
    | none => old k

/-- Options bag of `storeLearnedWord`. -/
structure StoreOpts where
  sourceLanguage : Option String := none
  detectedPos : Option String := none
  confidence : Option ℚ := none
  context : Option String := none
  source : Option String := none

/-- Return record of `storeLearnedWord`. -/
structure StoreResult where
  stored : Bool
  shouldTriggerPR : Bool
  pendingCount : Nat
deriving DecidableEq

/-- `storeLearnedWord` (learnedWords.ts lines 108–173). `now` stands for
`new Date().toISOString()`. -/
def storeLearnedWord (st : LWState) (now : String) (word : String)
    (translations : String → Option String) (opts : StoreOpts) :
    LWState × StoreResult :=
  let normalizedWord := jsNormalize word
  match st.words normalizedWord with
  | some existing =>
    let updated : LearnedWordR :=
      { existing with
        translations := mergeTranslations existing.translations translations,
        seenCount := existing.seenCount + 1,
        lastSeen := now,
        confidence := min ((existing.confidence + jsOrQ opts.confidence (7/10)) / 2) 1,
        contexts :=
          if jsStrTruthy opts.context then
            some (takeLast 4 (existing.contexts.getD []) ++ [opts.context.getD ""])
          else existing.contexts }
    let st' := putWord st normalizedWord updated
    let stats := getStats st'
    (st', { stored := true, shouldTriggerPR := false, pendingCount := stats.pendingCount })
  | none =>
    let newWord : LearnedWordR :=
      { word := normalizedWord,
        sourceLanguage := jsOrStr opts.sourceLanguage "en",
        translations := translations,
        detectedPos := opts.detectedPos,
        firstSeen := now,
        seenCount := 1,
        lastSeen := now,
        confidence := jsOrQ opts.confidence (7/10),
        contexts := if jsStrTruthy opts.context then some [opts.context.getD ""] else none,
        source := some (jsOrStr opts.source "ai") }
    let st1 := putWord st normalizedWord newWord
    let st2 := addToPendingQueue st1 normalizedWord
    let stats := getStats st2
    let config := getConfig st2
    let shouldTriggerPR :=
      config.autoTrigger && decide (config.prThreshold ≤ stats.pendingCount) &&
        !stats.isProcessing
    (st2, { stored := true, shouldTriggerPR := shouldTriggerPR,
            pendingCount := stats.pendingCount })

/-- `getLearnedTranslation` (learnedWords.ts lines 393–406): the stored value
is returned only when it is truthy and `confidence >= 0.7 || seenCount >= 3`
(0.7 is a hard-coded literal in the source, not `config.minConfidence`). -/
def getLearnedTranslation (st : LWState) (word targetLang : String) : Option String :=
  match getLearnedWord st word with
  | some learned =>
    match learned.translations targetLang with
    | some t =>
      if t = "" then none
      else if (7/10 : ℚ) ≤ learned.confidence ∨ 3 ≤ learned.seenCount then some t
      else none
    | none => none
  | none => none

/-! ## Learned Word Ledger — bulk upload (src/src/lib/learnedWords.ts) -/

/-- `BULK_TIERS` keys. -/
inductive BulkTier where
  | small | medium | large | xlarge | unlimited
deriving DecidableEq

/-- `BULK_TIERS[t].max`; `none` is the `Infinity` cap of the unlimited tier. -/
def tierCap : BulkTier → Option Nat
  | .small => some 100
  | .medium => some 500
  | .large => some 1000
  | .xlarge => some 5000
  | .unlimited => none

/-- The guard `words.length > maxAllowed && tier !== 'unlimited'`
(a comparison against `Infinity` is never true). -/
def bulkSizeExceeded (n : Nat) (t : BulkTier) : Bool :=
  (match tierCap t with
   | some m => decide (m < n)
   | none => false) && decide (t ≠ BulkTier.unlimited)

/-- One element of the `words` argument of `bulkUploadWords`. -/
structure BulkItem where
  word : String
  translations : String → Option String
  pos : Option String := none
  confidence : Option ℚ := none

/-- `BulkUploadOptions`. -/
structure BulkOpts where
  tier : Option BulkTier := none
  source : Option String := none
  sourceLanguage : Option String := none
  triggerPRThreshold : Option Nat := none
  skipDuplicates : Option Bool := none

/-- An entry of the `errors` array. -/
structure BulkErr where
  word : String
  error : String
deriving DecidableEq

/-- `BulkUploadResult`. -/
structure BulkResult where
  success : Bool
  added : Nat
  updated : Nat
  skipped : Nat
  errors : List BulkErr
  pendingCount : Nat
  shouldTriggerPR : Bool
  prThreshold : Nat
deriving DecidableEq

/-- The word-validity check of the per-item processing:
`!normalizedWord || normalizedWord.length < 2 || normalizedWord.length > 50`
(an invalid item is silently skipped). -/
def bulkWordValid (w : String) : Bool :=
  let n := jsNormalize w
  !(n = "" || n.length < 2 || 50 < n.length)

/-- Loop accumulator: the evolving KV state and the `added`/`updated`/
`skipped`/`errors` counters of the closure. -/
structure BulkAcc where
  st : LWState
  added : Nat
  updated : Nat
  skipped : Nat
  errors : List BulkErr

/-- Per-item body of the bulk loop (learnedWords.ts lines 231–278). The
`fail` oracle models the try/catch: `fail i = some msg` means the item's
first KV access threw with message `msg` (validation is pure and runs before
any KV access, so an invalid item can never throw). -/
def bulkStep (opts : BulkOpts) (now : String) (fail : Nat → Option String)
    (i : Nat) (item : BulkItem) (acc : BulkAcc) : BulkAcc :=
  let normalizedWord := jsNormalize item.word
  if ¬ bulkWordValid item.word then
    { acc with skipped := acc.skipped + 1 }
  else
    match fail i with
    | some msg => { acc with errors := acc.errors ++ [{ word := item.word, error := msg }] }
    | none =>
      match acc.st.words normalizedWord with
      | some existing =>
        if opts.skipDuplicates.getD false then
          { acc with skipped := acc.skipped + 1 }
        else
          let updatedWord : LearnedWordR :=
            { existing with
              translations := mergeTranslations existing.translations item.translations,
              seenCount := existing.seenCount + 1,
              lastSeen := now,
              confidence := jsOrQ item.confidence existing.confidence }
          { acc with st := putWord acc.st normalizedWord updatedWord,
                     updated := acc.updated + 1 }
      | none =>
        let newWord : LearnedWordR :=
          { word := normalizedWord,
            sourceLanguage := jsOrStr opts.sourceLanguage "en",
            translations := item.translations,
            detectedPos := item.pos,
            firstSeen := now,
            seenCount := 1,
            lastSeen := now,
            confidence := jsOrQ item.confidence (9/10),
            contexts := none,
            source := some (jsOrStr opts.source "bulk") }
        let st1 := putWord acc.st normalizedWord newWord
        let st2 := addToPendingQueue st1 normalizedWord
        { acc with st := st2, added := acc.added + 1 }

/-- The processing loop. The source fans items out in sub-batches of 50 via
`Promise.all`; the shared counters are incremented atomically by the event
loop, so the sequential composition below is its deterministic serialization. -/
def bulkLoop (opts : BulkOpts) (now : String) (fail : Nat → Option String) :
    List BulkItem → Nat → BulkAcc → BulkAcc
  | [], _, acc => acc
  | item :: rest, i, acc => bulkLoop opts now fail rest (i + 1) (bulkStep opts now fail i item acc)

/-- The size-rejection error message. -/
def bulkSizeMsg (n cap : Nat) : String :=
  s!"Batch size {n} exceeds tier limit of {cap}"

/-- The post-validation part of `bulkUploadWords`: run the loop, then read the
stats and form the result. -/
def bulkAfterGate (st : LWState) (now : String) (items : List BulkItem)
    (opts : BulkOpts) (fail : Nat → Option String) : LWState × BulkResult :=
  let config := getConfig st
  let acc := bulkLoop opts now fail items 0 ⟨st, 0, 0, 0, []⟩
  let stats := getStats acc.st
  let prThreshold := jsOrNat opts.triggerPRThreshold config.prThreshold
  let shouldTriggerPR :=
    config.autoTrigger && decide (prThreshold ≤ stats.pendingCount) && !stats.isProcessing
  (acc.st,
   { success := acc.errors.isEmpty,
     added := acc.added, updated := acc.updated, skipped := acc.skipped,
     errors := acc.errors,
     pendingCount := stats.pendingCount,
     shouldTriggerPR := shouldTriggerPR,
     prThreshold := prThreshold })

/-- `bulkUploadWords` (learnedWords.ts lines 197–297). -/
def bulkUploadWords (st : LWState) (now : String) (items : List BulkItem)
    (opts : BulkOpts) (fail : Nat → Option String) : LWState × BulkResult :=
  let tier := opts.tier.getD .medium
  let config := getConfig st
  if bulkSizeExceeded items.length tier then
    (st,
     { success := false, added := 0, updated := 0, skipped := 0,
       errors := [{ word := "", error := bulkSizeMsg items.length ((tierCap tier).getD 0) }],
       pendingCount := 0, shouldTriggerPR := false,
       prThreshold := config.prThreshold })
  else bulkAfterGate st now items opts fail

/-! ## Embedded dictionary (src/src/lib/dictionary.ts) -/

/-- `EtymologyData`. -/
structure EtymologyDataM where
  origin : String
  originalForm : Option String := none
  meaning : Option String := none
  root : Option String := none
  rootLanguage : Option String := none
  cognates : Option (List (String × String)) := none
  firstUse : Option String := none
  evolution : Option (List String) := none
deriving DecidableEq

/-- `DictionaryEntry`. -/
structure DictionaryEntryM where
  translations : String → Option String
  etymology : Option EtymologyDataM := none
  pos : Option String := none
  frequency : Option Nat := none
  variants : Option (List String) := none

/-- A dictionary table, `word -> DictionaryEntry`. The resolution functions
below are parametric in it. -/
def DictTable : Type := String → Option DictionaryEntryM

/-- The etymology object of the `CORE_DICTIONARY` entry for "hello". -/
def helloEtymData : EtymologyDataM :=
  { origin := "Old English", originalForm := some "hǣl",
    meaning := some "health, wholeness", root := some "*hailaz",
    rootLanguage := some "Proto-Germanic",
    cognates := some [("heil", "German"), ("heel", "Dutch")],
    firstUse := some "1826 (as greeting)" }

/-- The `CORE_DICTIONARY` entry for "hello" (dictionary.ts lines 70–75). -/
def helloEntry : DictionaryEntryM :=
  { translations := fun lang =>
      if lang = "es" then some "hola" else if lang = "fr" then some "bonjour"
      else if lang = "de" then some "hallo" else if lang = "it" then some "ciao"
      else if lang = "pt" then some "olá" else if lang = "ja" then some "こんにちは"
      else if lang = "zh" then some "你好" else if lang = "ko" then some "안녕하세요"
      else if lang = "ar" then some "مرحبا" else if lang = "ru" then some "привет"
      else none,
    etymology := some helloEtymData,
    pos := some "interjection", frequency := some 1 }

/-- The `CORE_DICTIONARY` entry for "yes" (dictionary.ts lines 82–87). -/
def yesEntry : DictionaryEntryM :=
  { translations := fun lang =>
      if lang = "es" then some "sí" else if lang = "fr" then some "oui"
      else if lang = "de" then some "ja" else if lang = "it" then some "sì"
      else if lang = "pt" then some "sim" else if lang = "ja" then some "はい"
      else if lang = "zh" then some "是" else if lang = "ko" then some "네"
      else if lang = "ar" then some "نعم" else if lang = "ru" then some "да"
      else none,
    etymology := some
      { origin := "Old English", originalForm := some "gēse",
        meaning := some "so be it", root := some "*gea swa",
        rootLanguage := some "Proto-Germanic" },
    pos := some "adverb", frequency := some 3 }

/-- The `CORE_DICTIONARY` entry for "thanks" (dictionary.ts lines 106–110;
one of the entries carrying no etymology). -/
def thanksEntry : DictionaryEntryM :=
  { translations := fun lang =>
      if lang = "es" then some "gracias" else if lang = "fr" then some "merci"
      else if lang = "de" then some "danke" else if lang = "it" then some "grazie"
      else if lang = "pt" then some "obrigado" else if lang = "ja" then some "ありがとう"
      else if lang = "zh" then some "谢谢" else if lang = "ko" then some "감사합니다"
      else if lang = "ar" then some "شكرا" else if lang = "ru" then some "спасибо"
      else none,
    pos := some "noun", frequency := some 7 }

/-- `CORE_DICTIONARY`, transcribed on the entries the claims touch; the
remaining ~225 static seed entries (spec §1 excludes the seed content, and no
claim depends on them) are omitted, which the parametric resolution functions
make harmless. -/
def CORE_DICTIONARY : DictTable := fun w =>
  if w = "hello" then some helloEntry
  else if w = "yes" then some yesEntry
  else if w = "thanks" then some thanksEntry
  else none

/-- `lookupWord` (dictionary.ts lines 1252–1255). -/
def lookupWord (dict : DictTable) (word : String) : Option DictionaryEntryM :=
  dict (jsNormalize word)

/-- `TranslationResult`. -/
structure TranslationResultM where
  original : String
  translated : String
  source : String
  etymology : Option EtymologyDataM
  confidence : ℚ

/-- `translateWord` (dictionary.ts lines 1260–1274); the guard
`!entry.translations[targetLang]` makes a present-but-empty value a miss. -/
def translateWord (dict : DictTable) (word targetLang : String) :
    Option TranslationResultM :=
  match lookupWord dict word with
  | none => none
  | some entry =>
    match entry.translations targetLang with
    | none => none
    | some t =>
      if t = "" then none
      else some { original := word, translated := t, source := "dictionary",
                  etymology := entry.etymology, confidence := 1 }

/-- `translateWords` (dictionary.ts lines 1279–1296): found results and missed
words, each in input order. -/
def translateWords (dict : DictTable) (words : List String) (targetLang : String) :
    List TranslationResultM × List String :=
  match words with
  | [] => ([], [])
  | w :: rest =>
    let r := translateWords dict rest targetLang
    match translateWord dict w targetLang with
    | some t => (t :: r.1, r.2)
    | none => (r.1, w :: r.2)

/-- `getEtymology` (dictionary.ts lines 1322–1325): `entry?.etymology || null`. -/
def getEtymologyDict (dict : DictTable) (word : String) : Option EtymologyDataM :=
  match lookupWord dict word with
  | some entry => entry.etymology
  | none => none

/-! ## POST /translate handler (src/src/index.ts lines 781–921) -/

/-- The maximal non-whitespace runs of a character list, in order. -/
def splitWsAux : List Char → List Char → List (List Char)
  | [], acc => if acc.isEmpty then [] else [acc.reverse]
  | c :: rest, acc =>
    if isJsWs c then
      if acc.isEmpty then splitWsAux rest []
      else acc.reverse :: splitWsAux rest []
    else splitWsAux rest (c :: acc)

/-- JS `s.split(/\s+/)`: the non-whitespace runs, plus an empty string at
either end when the input starts or ends with whitespace. -/
def jsSplitWs (s : String) : List String :=
  if s = "" then [""]
  else
    let core := (splitWsAux s.data []).map (fun l => (⟨l⟩ : String))
    let withLead := if isJsWs (s.data.headD 'a') then "" :: core else core
    if isJsWs (s.data.getLastD 'a') then withLead ++ [""] else withLead

/-- The token list of the handler:
`normalizedText.toLowerCase().split(/\s+/).filter(w => w.length > 0)`. -/
def tokensOf (s : String) : List String :=
  (jsSplitWs (lowerStr s)).filter (fun w => w ≠ "")

/-- The `words[]` element of a translation response. -/
structure WordInfoM where
  original : String
  translated : String
  hasEtymology : Bool
deriving DecidableEq

/-- `TranslationResponse`. -/
structure TranslationResponseM where
  original : String
  translated : String
  from_language : String
  to_language : String
  cached : Bool
  source : Option String
  words : Option (List WordInfoM)
deriving DecidableEq

/-- The whole-text dictionary resolution stage (index.ts lines 812–843):
attempted only for ≤ 10 tokens with source language `en` or `auto`, and
succeeding only when every token resolves. -/
def dictStage (dict : DictTable) (normalizedText : String) (ws : List String)
    (fromL toL : String) : Option TranslationResponseM :=
  if ws.length ≤ 10 ∧ (fromL = "en" ∨ fromL = "auto") then
    let r := translateWords dict ws toL
    if r.2 = [] ∧ r.1.length = ws.length then
      some
        { original := normalizedText,
          translated := String.intercalate " " (r.1.map (·.translated)),
          from_language := if fromL = "auto" then "en" else fromL,
          to_language := toL,
          cached := false,
          source := some "dictionary",
          words := some (r.1.map fun t =>
            { original := t.original, translated := t.translated,
              hasEtymology := t.etymology.isSome }) }
    else none
  else none

/-- Handler output: the JSON response plus the handler's observable effects.
`ledgerStores` lists the `(word, learnedValue)` pairs passed to
`storeLearnedWord`: the handler source contains no such call, so every return
site below carries `[]`. `cachePut` records whether the result was written to
CACHE_KV. -/
structure HandlerOut where
  response : TranslationResponseM
  ledgerStores : List (String × String)
  cachePut : Bool
deriving DecidableEq

/-- Request body of POST /translate. -/
structure TranslationRequestM where
  text : String
  fromField : Option String
  toField : String
  context : Option String

/-- The POST /translate handler. `cachedVal` is the CACHE_KV entry under the
request's cache key (`none` = miss); `ai` is the `translateWithCF` cascade on
the full text. Returns `.error` for the 400 validation response. -/
def translateHandler (dict : DictTable) (req : TranslationRequestM)
    (bypassCache : Bool) (cachedVal : Option TranslationResponseM)
    (ai : String → String) : Except String HandlerOut :=
  let fromL := req.fromField.getD "auto"
  if req.text = "" ∨ req.toField = "" then .error "text and to language required"
  else
    let normalizedText := takeStr 5000 (trimStr req.text)
    -- 1. cache check (unless bypassed)
    match if bypassCache then none else cachedVal with
    | some r => .ok { response := { r with cached := true }, ledgerStores := [], cachePut := false }
    | none =>
      -- 2. whole-text dictionary resolution
      let ws := tokensOf normalizedText
      match dictStage dict normalizedText ws fromL req.toField with
      | some r => .ok { response := r, ledgerStores := [], cachePut := true }
      | none =>
        -- 3. per-token partial resolution; AI on the full text if any unknown
        let partialResult := ws.map fun w =>
          match translateWord dict w req.toField with
          | some t => (w, t.translated, true)
          | none => (w, w, false)
        let hasUnknown := partialResult.any fun r => !r.2.2
        if hasUnknown then
          let translatedText := ai normalizedText
          .ok { response :=
                  { original := normalizedText, translated := translatedText,
                    from_language := fromL, to_language := req.toField,
                    cached := false, source := some "api",
                    words := some (partialResult.map fun r =>
                      { original := r.1, translated := r.2.1,
                        hasEtymology := (getEtymologyDict dict r.1).isSome }) },
                ledgerStores := [], cachePut := true }
        else
          -- 4. full-text AI translation with index-aligned word data
          let translation := ai normalizedText
          let translatedWords := jsSplitWs translation
          let wordData := (translatedWords.enum).map fun p =>
            let originalWord := jsOrStr (ws.get? p.1) p.2
            { original := originalWord, translated := p.2,
              hasEtymology := (getEtymologyDict dict originalWord).isSome : WordInfoM }
          .ok { response :=
                  { original := normalizedText, translated := translation,
                    from_language := fromL, to_language := req.toField,
                    cached := false, source := some "api",
                    words := some wordData },
                ledgerStores := [], cachePut := true }

/-! ## GitHub PR creator (src/unnamed/part_000) and Contribution Trigger -/

/-- `GitHubConfig`. -/
structure GhConfig where
  token : String
  owner : String
  repo : String
  baseBranch : Option String := none

/-- `CreatePRResult`. -/
structure CreatePRResultM where
  success : Bool
  prNumber : Option Nat := none
  prUrl : Option String := none
  error : Option String := none
deriving DecidableEq

/-- Outcomes of the five GitHub API calls, in call order; `.error e` is a
non-2xx response whose body text is `e` (or a thrown network error). -/
structure GhOutcomes where
  baseRef : Except String String
  createBranch : Except String Unit
  getDictFile : Except String (String × String)
  updateFile : Except String Unit
  openPR : Except String (Nat × String)

/-- `pat` is a prefix of `l`. -/
def listIsPre : List Char → List Char → Bool
  | [], _ => true
  | _ :: _, [] => false
  | p :: ps, c :: cs => p = c && listIsPre ps cs

/-- `pat` occurs as a contiguous sublist of `l` (JS `indexOf(...) !== -1`). -/
def listHasSub (pat : List Char) : List Char → Bool
  | [] => pat.isEmpty
  | c :: cs => listIsPre pat (c :: cs) || listHasSub pat cs

/-- The insertion marker searched for in dictionary.ts. -/
def insertMarker : String := "const CORE_DICTIONARY: Record<string, DictionaryEntry> = \x7b"

/-- `createDictionaryPR` (part_000 lines 29–168). The request payloads
(commit message, spliced file content, PR body) do not influence control
flow or the returned record and are elided; `gh` gives each call's outcome.
Note that the function never touches the Learned Words KV: in particular it
neither sets nor resets `isProcessing`. -/
def createDictionaryPR (config : GhConfig) (words : List LearnedWordR)
    (gh : GhOutcomes) : CreatePRResultM :=
  if config.token = "" ∨ config.owner = "" ∨ config.repo = "" then
    { success := false, error := some "Missing GitHub configuration" }
  else if words.length = 0 then
    { success := false, error := some "No words to add" }
  else
    match gh.baseRef with
    | .error e => { success := false, error := some ("Failed to get base branch: " ++ e) }
    | .ok _baseSha =>
      match gh.createBranch with
      | .error e => { success := false, error := some ("Failed to create branch: " ++ e) }
      | .ok _ =>
        match gh.getDictFile with
        | .error _ => { success := false, error := some "Failed to get dictionary.ts" }
        | .ok (currentContent, _sha) =>
          if ¬ listHasSub insertMarker.data currentContent.data then
            { success := false,
              error := some "Could not find CORE_DICTIONARY in dictionary.ts" }
          else
            match gh.updateFile with
            | .error e =>
              { success := false, error := some ("Failed to update dictionary.ts: " ++ e) }
            | .ok _ =>
              match gh.openPR with
              | .error e => { success := false, error := some ("Failed to create PR: " ++ e) }
              | .ok (num, url) =>
                { success := true, prNumber := some num, prUrl := some url, error := none }

/-- Modelled from the spec: the Contribution Trigger orchestration (§4.4)
that wires `markProcessing`, `createDictionaryPR` and `clearPendingQueue`
together is not present under src/ (only those three callees are). Following
§4.4 steps 1–6: mark `isProcessing` before any external call, run the PR
creation, and on full success clear the Pending Queue (which also resets
`isProcessing`). On failure the source provides no reset — §4.4.7 itself
flags the source's handling of that path as incomplete — so the failure
branch below returns with the state as `markProcessing` left it. -/
def contributionRun (st : LWState) (config : GhConfig) (words : List LearnedWordR)
    (gh : GhOutcomes) (now : String) : LWState × CreatePRResultM :=
  let st1 := markProcessing st
  let r := createDictionaryPR config words gh
  if r.success then (clearPendingQueue st1 (r.prNumber.getD 0) now, r)
  else (st1, r)

/-! ## Etymology engine — markup cleaning (src/src/lib/etymology.ts) -/

/-- Scan for the closing `>` of `/<[^>]+>/` after at least one body character
has been seen; returns the remainder after the `>`. -/
def tagScan : List Char → Option (List Char)
  | [] => none
  | c :: rest => if c = '>' then some rest else tagScan rest

/-- Match `[^>]+>` (the part of `/<[^>]+>/` after the `<`): at least one
non-`>` character, then the first `>`; returns the remainder. -/
def tagEnd : List Char → Option (List Char)
  | [] => none
  | c :: rest => if c = '>' then none else tagScan rest

/-- One global pass of `current.replace(/<[^>]+>/g, '')`, fuelled: every
recursive call consumes at least one input character, so fuel `l.length`
(supplied by `stripTagsOnce`) never runs out. -/
def stripOnceFuel : Nat → List Char → List Char
  | 0, l => l
  | _ + 1, [] => []
  | n + 1, c :: rest =>
    if c = '<' then
      match tagEnd rest with
      | some rest' => stripOnceFuel n rest'
      | none => c :: stripOnceFuel n rest
    else c :: stripOnceFuel n rest

/-- One pass of the tag-stripping replace. -/
def stripTagsOnce (l : List Char) : List Char := stripOnceFuel l.length l

/-- The do-while of `removeHtmlTags`, fuelled: a changing pass strictly
shortens the string (see `stripTagsOnce_lt_of_ne`), so fuel `l.length + 1`
(supplied by `removeHtmlTagsList`) reaches the fixed point. -/
def stripLoopFuel : Nat → List Char → List Char
  | 0, l => l
  | n + 1, l =>
    let t := stripTagsOnce l
    if t = l then l else stripLoopFuel n t

/-- `removeHtmlTags` on a character list. -/
def removeHtmlTagsList (l : List Char) : List Char := stripLoopFuel (l.length + 1) l

/-- `removeHtmlTags` (etymology.ts lines 138–153). -/
def removeHtmlTags (s : String) : String :=
  if s = "" then "" else ⟨removeHtmlTagsList s.data⟩

/-- Scan the tail of `[^\]|]+\|`: to the first `|` (success) or `]`/end
(failure), once one body character has been consumed. -/
def eatPipeA' : List Char → Option (List Char)
  | [] => none
  | c :: rest => if c = '|' then some rest else if c = ']' then none else eatPipeA' rest

/-- After `[[`, match `[^\]|]+\|` (the target part of a piped wiki link):
a maximal run avoiding `]` and `|`, whose first stop character must be `|`;
returns the remainder after the `|`. -/
def eatPipeA : List Char → Option (List Char)
  | [] => none
  | c :: rest => if c = ']' ∨ c = '|' then none else eatPipeA' rest

/-- Continuation of `eatLinkB`: accumulate non-`]` characters; the first `]`
must be immediately followed by `]`. -/
def eatLinkB' (acc : List Char) : List Char → Option (List Char × List Char)
  | [] => none
  | c :: rest =>
    if c = ']' then
      match rest with
      | c2 :: rest2 => if c2 = ']' then some (acc.reverse, rest2) else none
      | [] => none
    else eatLinkB' (c :: acc) rest

/-- Match `[^\]]+\]\]` (display text of a wiki link followed by the closing
brackets); returns the captured text and the remainder. -/
def eatLinkB : List Char → Option (List Char × List Char)
  | [] => none
  | c :: rest => if c = ']' then none else eatLinkB' [c] rest

/-- Global `replace(/\[\[([^\]|]+)\|([^\]]+)\]\]/g, '$2')`, fuelled (every
recursive call consumes at least one input character). -/
def replacePipeFuel : Nat → List Char → List Char
  | 0, l => l
  | _ + 1, [] => []
  | n + 1, c :: rest =>
    if c = '[' then
      match rest with
      | c2 :: rest2 =>
        if c2 = '[' then
          match eatPipeA rest2 with
          | some afterPipe =>
            match eatLinkB afterPipe with
            | some (b, rest') => b ++ replacePipeFuel n rest'
            | none => c :: replacePipeFuel n rest
          | none => c :: replacePipeFuel n rest
        else c :: replacePipeFuel n rest
      | [] => [c]
    else c :: replacePipeFuel n rest

/-- Global `replace(/\[\[([^\]]+)\]\]/g, '$1')`, fuelled. -/
def replacePlainFuel : Nat → List Char → List Char
  | 0, l => l
  | _ + 1, [] => []
  | n + 1, c :: rest =>
    if c = '[' then
      match rest with
      | c2 :: rest2 =>
        if c2 = '[' then
          match eatLinkB rest2 with
          | some (b, rest') => b ++ replacePlainFuel n rest'
          | none => c :: replacePlainFuel n rest
        else c :: replacePlainFuel n rest
      | [] => [c]
    else c :: replacePlainFuel n rest

/-- The template braces, kept out of source text as character codes. -/
def lbrace : Char := Char.ofNat 123

/-- Closing template brace. -/
def rbrace : Char := Char.ofNat 125

/-- Continuation of `eatTmplB`: scan to the first closing brace, which must be
doubled; returns the remainder. -/
def eatTmplB' : List Char → Option (List Char)
  | [] => none
  | c :: rest =>
    if c = rbrace then
      match rest with
      | c2 :: rest2 => if c2 = rbrace then some rest2 else none
      | [] => none
    else eatTmplB' rest

/-- Match the body-and-close of a template (one or more non-closing-brace
characters, then the doubled closing brace). -/
def eatTmplB : List Char → Option (List Char)
  | [] => none
  | c :: rest => if c = rbrace then none else eatTmplB' rest

/-- Global template removal, fuelled. -/
def replaceTmplFuel : Nat → List Char → List Char
  | 0, l => l
  | _ + 1, [] => []
  | n + 1, c :: rest =>
    if c = lbrace then
      match rest with
      | c2 :: rest2 =>
        if c2 = lbrace then
          match eatTmplB rest2 with
          | some rest' => replaceTmplFuel n rest'
          | none => c :: replaceTmplFuel n rest
        else c :: replaceTmplFuel n rest
      | [] => [c]
    else c :: replaceTmplFuel n rest

/-- The defensive `replace(/[<>]/g, '')`. -/
def stripAngles (l : List Char) : List Char :=
  l.filter (fun c => !(c = '<' || c = '>'))

/-- `replace(/\s+/g, ' ')`: each whitespace run becomes a single space. -/
def collapseWs : List Char → List Char
  | [] => []
  | [c] => if isJsWs c then [' '] else [c]
  | c :: c2 :: rest =>
    if isJsWs c && isJsWs c2 then collapseWs (c2 :: rest)
    else (if isJsWs c then ' ' else c) :: collapseWs (c2 :: rest)

/-- `cleanWikiMarkup` (etymology.ts lines 155–174): piped links, plain links,
templates, the repeated tag-stripping loop, defensive angle-bracket removal,
whitespace collapsing, and trim. -/
def cleanWikiMarkup (s : String) : String :=
  if s = "" then ""
  else
    let c1 := replacePipeFuel s.data.length s.data
    let c2 := replacePlainFuel c1.length c1
    let c3 := replaceTmplFuel c2.length c2
    let c4 := removeHtmlTagsList c3
    ⟨trimWs (collapseWs (stripAngles c4))⟩

/-! ## Etymology engine — tiered resolution (src/src/lib/etymology.ts) -/

/-- One part-of-speech group of a parsed Wiktionary entry; each definition is
paired with its optional examples. -/
structure WikDefGroupM where
  partOfSpeech : String
  language : String
  defs : List (String × Option (List String))

/-- A parsed `WiktionaryEntry` as returned by `fetchFromWiktionary`. -/
structure WikEntryM where
  word : String
  language : String
  definitions : List WikDefGroupM
  etymology : Option String
  pronunciations : Option (List String)

/-- One flattened definition of a `FullEtymologyResult`. -/
structure EtymDefM where
  partOfSpeech : String
  meaning : String
  examples : Option (List String)
deriving DecidableEq

/-- `FullEtymologyResult`. -/
structure FullEtyM where
  word : String
  language : String
  etymology : EtymologyDataM
  definitions : Option (List EtymDefM) := none
  pronunciations : Option (List String) := none
  source : String
  cached : Bool
deriving DecidableEq

/-- The externally observable operations of `getFullEtymology`: cache reads
and writes (by key), Wiktionary fetches and AI calls (by word). -/
structure EffLog where
  cacheGets : List String
  cachePuts : List String
  wikFetches : List String
  aiCalls : List String
deriving DecidableEq

/-- The empty effect log. -/
def emptyLog : EffLog := ⟨[], [], [], []⟩

/-- Steps 4–5 of `getFullEtymology`: the CF AI fallback (a throwing call is
caught and treated like `null`, hence one oracle) and the minimal terminal
result. -/
def etymStep4 (nw language cacheKey : String) (kvPresent : Bool)
    (ai : Option (String → Option EtymologyDataM)) : FullEtyM × EffLog :=
  match ai with
  | some f =>
    match f nw with
    | some aiEtymology =>
      ({ word := nw, language := language, etymology := aiEtymology,
         source := "api", cached := false },
       { emptyLog with aiCalls := [nw],
                       cachePuts := if kvPresent then [cacheKey] else [] })
    | none =>
      ({ word := nw, language := language, etymology := { origin := "Unknown" },
         source := "dictionary", cached := false },
       { emptyLog with aiCalls := [nw] })
  | none =>
    ({ word := nw, language := language, etymology := { origin := "Unknown" },
       source := "dictionary", cached := false },
     emptyLog)

/-- Step 3 of `getFullEtymology`: the Wiktionary fetch; usable only when the
entry exists and carries a truthy etymology string. `parseEtym` is the
ordered-heuristic `parseEtymologyText` extractor (etymology.ts lines
179–280), whose regex internals no claim touches; it is threaded as a
parameter. -/
def etymStep3 (nw language cacheKey : String) (kvPresent : Bool)
    (wik : String → Option WikEntryM)
    (parseEtym : String → String → EtymologyDataM)
    (ai : Option (String → Option EtymologyDataM)) : FullEtyM × EffLog :=
  let fallback :=
    let r := etymStep4 nw language cacheKey kvPresent ai
    (r.1, { r.2 with wikFetches := nw :: r.2.wikFetches })
  match wik nw with
  | some entry =>
    match entry.etymology with
    | some etymText =>
      if etymText = "" then fallback
      else
        ({ word := nw, language := language,
           etymology := parseEtym etymText nw,
           definitions := some (entry.definitions.flatMap fun d =>
             d.defs.map fun pr =>
               { partOfSpeech := d.partOfSpeech, meaning := pr.1, examples := pr.2 }),
           pronunciations := entry.pronunciations,
           source := "wiktionary", cached := false },
         { emptyLog with wikFetches := [nw],
                         cachePuts := if kvPresent then [cacheKey] else [] })
    | none => fallback
  | none => fallback

/-- `getFullEtymology` (etymology.ts lines 299–406). `kv` is the CACHE_KV
content as a map from keys to previously serialized results; `wik` the
Wiktionary fetch outcome; `ai` the structured-etymology AI oracle. Returns
the result together with the log of external operations performed. -/
def getFullEtymology (dict : DictTable) (word language : String)
    (kv : Option (String → Option FullEtyM))
    (wik : String → Option WikEntryM)
    (parseEtym : String → String → EtymologyDataM)
    (ai : Option (String → Option EtymologyDataM)) : FullEtyM × EffLog :=
  let nw := jsNormalize word
  match getEtymologyDict dict nw with
  | some localEtymology =>
    ({ word := nw, language := language, etymology := localEtymology,
       definitions := none, pronunciations := none,
       source := "dictionary", cached := false },
     emptyLog)
  | none =>
    let cacheKey := "etym:" ++ language ++ ":" ++ nw
    match kv with
    | some store =>
      match store cacheKey with
      | some r => ({ r with cached := true }, { emptyLog with cacheGets := [cacheKey] })
      | none =>
        let r := etymStep3 nw language cacheKey true wik parseEtym ai
        (r.1, { r.2 with cacheGets := [cacheKey] })
    | none => etymStep3 nw language cacheKey false wik parseEtym ai

/-! ## Small state lemmas -/

theorem putWord_config (st : LWState) (k : String) (v : LearnedWordR) :
    (putWord st k v).config = st.config := rfl

theorem putWord_stats (st : LWState) (k : String) (v : LearnedWordR) :
    (putWord st k v).stats = st.stats := rfl

theorem addToPendingQueue_config (st : LWState) (w : String) :
    (addToPendingQueue st w).config = st.config := by
  unfold addToPendingQueue setPendingCount
  split <;> rfl

theorem addToPendingQueue_isProcessing (st : LWState) (w : String) :
    (addToPendingQueue st w).stats.isProcessing = st.stats.isProcessing := by
  unfold addToPendingQueue setPendingCount
  split <;> rfl

/-! ## Claims -/

/-- **C1** (amended). `storeLearnedWord` returns `{stored, shouldTriggerPR,
pendingCount}` with `stored = true`, and `shouldTriggerPR` is true iff the
word was *newly created* in the ledger and `autoTrigger` is set and the
returned pending count is at least `prThreshold` and `isProcessing` is false.
For a word that already existed, the source returns `shouldTriggerPR: false`
unconditionally, so the claim's unrestricted truth table does not hold there
(see the counterexample). -/
theorem storeLearnedWord_shouldTriggerPR (st : LWState) (now w : String)
    (tr : String → Option String) (opts : StoreOpts) :
    (storeLearnedWord st now w tr opts).2.stored = true ∧
    ((storeLearnedWord st now w tr opts).2.shouldTriggerPR = true ↔
      (st.words (jsNormalize w) = none ∧ st.config.autoTrigger = true ∧
       st.config.prThreshold ≤ (storeLearnedWord st now w tr opts).2.pendingCount ∧
       st.stats.isProcessing = false)) := by
  cases h : st.words (jsNormalize w) with
  | some e =>
    simp [storeLearnedWord, h, getStats, putWord]
  | none =>
    simp only [storeLearnedWord, h, getStats, getConfig,
      addToPendingQueue_config, addToPendingQueue_isProcessing,
      putWord_config, putWord_stats]
    refine ⟨trivial, ?_⟩
    simp [Bool.and_eq_true, decide_eq_true_eq, Bool.not_eq_true', and_assoc]

/-- Already-recorded word for the C1 counterexample. -/
def c1Rec : LearnedWordR :=
  { word := "casa", sourceLanguage := "en",
    translations := fun l => if l = "es" then some "casa" else none,
    detectedPos := none, firstSeen := "t0", seenCount := 1, lastSeen := "t0",
    confidence := 8/10, contexts := none, source := some "ai" }

/-- Ledger state in which every trigger condition of the claim holds:
`autoTrigger` on, pending count 5 ≥ `prThreshold` 3, not processing. -/
def c1St : LWState :=
  { words := fun k => if k = "casa" then some c1Rec else none,
    queue := ["casa"],
    stats := ⟨1, 5, none, none, false⟩,
    config := { DEFAULT_CONFIG with prThreshold := 3 } }

/-- **C1 counterexample.** Storing "casa" again while `autoTrigger` is set,
the returned pending count (5) is at least `prThreshold` (3) and
`isProcessing` is false still yields `shouldTriggerPR = false`: the claimed
iff fails for a word that already existed in the ledger. -/
theorem storeLearnedWord_shouldTriggerPR_cx :
    (storeLearnedWord c1St "t1" "casa"
        (fun l => if l = "es" then some "house" else none) {}).2.shouldTriggerPR = false ∧
    c1St.config.autoTrigger = true ∧
    c1St.config.prThreshold ≤
      (storeLearnedWord c1St "t1" "casa"
        (fun l => if l = "es" then some "house" else none) {}).2.pendingCount ∧
    c1St.stats.isProcessing = false := by
  refine ⟨rfl, rfl, ?_, rfl⟩
  decide

/-- **C5** (amended). `getLearnedTranslation` returns the stored translation
exactly when the record exists, the target-language key holds a non-empty
string, and the confidence is at least the constant `0.7` (the hard-coded
literal in the source, which coincides with the *default* `minConfidence` but
ignores the configured value) or `seenCount` is at least 3. -/
theorem getLearnedTranslation_spec (st : LWState) (w lang t : String) :
    getLearnedTranslation st w lang = some t ↔
      ∃ rec, st.words (jsNormalize w) = some rec ∧ rec.translations lang = some t ∧
        t ≠ "" ∧ ((7/10 : ℚ) ≤ rec.confidence ∨ 3 ≤ rec.seenCount) := by
  unfold getLearnedTranslation getLearnedWord
  cases h : st.words (jsNormalize w) with
  | none => simp
  | some rec =>
    simp only [Option.some.injEq, h]
    cases h2 : rec.translations lang with
    | none =>
      simp only [h2]
      constructor
      · intro hx; cases hx
      · rintro ⟨rec', hrec', htr, _⟩
        subst hrec'
        rw [h2] at htr
        cases htr
    | some t' =>
      simp only [h2]
      constructor
      · intro hx
        split_ifs at hx with he hc
        have h3 : t' = t := Option.some.inj hx
        subst h3
        exact ⟨rec, rfl, h2, he, hc⟩
      · rintro ⟨rec', hrec', htr, hne, hc⟩
        subst hrec'
        rw [h2] at htr
        cases htr
        rw [if_neg hne, if_pos hc]

/-- Record for the C5 counterexample: confidence 0.6, seen once, with an
"es" translation. -/
def c5Rec : LearnedWordR :=
  { word := "foo", sourceLanguage := "en",
    translations := fun l => if l = "es" then some "bar" else none,
    detectedPos := none, firstSeen := "t0", seenCount := 1, lastSeen := "t0",
    confidence := 3/5, contexts := none, source := some "ai" }

/-- Ledger state with `minConfidence` configured to 0.5. -/
def c5St : LWState :=
  { words := fun k => if k = "foo" then some c5Rec else none,
    queue := [], stats := ⟨1, 0, none, none, false⟩,
    config := { DEFAULT_CONFIG with minConfidence := 1/2 } }

/-- **C5 counterexample.** With `minConfidence` configured to 0.5, a record of
confidence 0.6 ≥ minConfidence whose "es" key exists is *not* returned (the
source compares against the literal 0.7), refuting the claim that the
configured `minConfidence` is the threshold. -/
theorem getLearnedTranslation_cx :
    getLearnedTranslation c5St "foo" "es" = none ∧
    c5St.words (jsNormalize "foo") = some c5Rec ∧
    c5Rec.translations "es" = some "bar" ∧
    c5St.config.minConfidence ≤ c5Rec.confidence ∧
    c5Rec.seenCount < 3 := by
  refine ⟨?_, rfl, rfl, ?_, by decide⟩
  · norm_num [getLearnedTranslation, getLearnedWord, c5St, c5Rec,
      show jsNormalize "foo" = "foo" from rfl]
  · norm_num [c5St, c5Rec, DEFAULT_CONFIG]

/-- A pending learned word for the C3 run. -/
def c3Word : LearnedWordR :=
  { word := "zzz", sourceLanguage := "en",
    translations := fun l => if l = "es" then some "zzz-es" else none,
    detectedPos := none, firstSeen := "t0", seenCount := 1, lastSeen := "t0",
    confidence := 8/10, contexts := none, source := some "ai" }

/-- Ledger state before the C3 contribution run: one pending word, not
processing. -/
def c3St : LWState :=
  { words := fun k => if k = "zzz" then some c3Word else none,
    queue := ["zzz"],
    stats := ⟨1, 1, none, none, false⟩,
    config := DEFAULT_CONFIG }

/-- GitHub outcomes for the C3 run: step 2 (read base ref) fails, the rest
would succeed. -/
def c3Gh : GhOutcomes :=
  { baseRef := .error "404: Not Found",
    createBranch := .ok (),
    getDictFile := .ok (insertMarker, "sha0"),
    updateFile := .ok (),
    openPR := .ok (7, "https://example.test/pr/7") }

/-- **C3.** A contribution run that starts from `isProcessing = false` and
fails at step 2 returns a structured error as claimed, but leaves
`isProcessing = true` afterwards: no code path resets the flag on failure
(`createDictionaryPR` never touches the ledger KV and `clearPendingQueue`
runs only on success), so a later attempt *is* permanently blocked, contrary
to the claim. -/
theorem contribution_failure_keeps_processing :
    (contributionRun c3St ⟨"tok", "own", "repo", none⟩ [c3Word] c3Gh "t2").2.success = false ∧
    (contributionRun c3St ⟨"tok", "own", "repo", none⟩ [c3Word] c3Gh "t2").2.error =
      some "Failed to get base branch: 404: Not Found" ∧
    c3St.stats.isProcessing = false ∧
    (contributionRun c3St ⟨"tok", "own", "repo", none⟩ [c3Word] c3Gh "t2").1.stats.isProcessing = true := by
  exact ⟨rfl, rfl, rfl, rfl⟩

/-- The C2 request: "zzz" is not in the dictionary, so the text reaches the
AI cascade. -/
def c2Req : TranslationRequestM :=
  { text := "hello zzz", fromField := some "en", toField := "es", context := none }

/-- **C2.** On a cache-bypassing request whose token "zzz" fails per-token
dictionary resolution, the handler invokes the AI cascade on the full text
(`source = "api"`), yet performs no `storeLearnedWord` call at all
(`ledgerStores = []`): unresolved tokens are never recorded in the Learned
Word Ledger, although the ledger module documents itself as storing exactly
these words. -/
theorem translate_handler_stores_nothing :
    (translateHandler CORE_DICTIONARY c2Req true none (fun _ => "hola zzz-ai")).toOption.map
        (fun o => (o.response.source, o.response.translated, o.ledgerStores)) =
      some (some "api", "hola zzz-ai", []) ∧
    "zzz" ∈ tokensOf (takeStr 5000 (trimStr c2Req.text)) ∧
    translateWord CORE_DICTIONARY "zzz" "es" = none := by
  exact ⟨rfl, by decide, rfl⟩

/-- **C8.** Whenever the embedded dictionary entry of a word carries
etymology data, `getFullEtymology` returns exactly that data with
`source = "dictionary"` and `cached = false`, and its effect log is empty:
no cache read, no cache write, no Wiktionary fetch and no AI call are
performed — the embedded-store tier short-circuits all later tiers and its
hits are never cached. -/
theorem getFullEtymology_dictionary_tier (dict : DictTable) (word language : String)
    (kv : Option (String → Option FullEtyM)) (wik : String → Option WikEntryM)
    (parseEtym : String → String → EtymologyDataM)
    (ai : Option (String → Option EtymologyDataM)) (e : EtymologyDataM)
    (h : getEtymologyDict dict (jsNormalize word) = some e) :
    getFullEtymology dict word language kv wik parseEtym ai =
      ({ word := jsNormalize word, language := language, etymology := e,
         definitions := none, pronunciations := none,
         source := "dictionary", cached := false }, emptyLog) := by
  unfold getFullEtymology
  simp only [h]

/-- A cache entry that would be visible in the result if the cache were read. -/
def c8Cached : FullEtyM :=
  { word := "hello", language := "en", etymology := { origin := "CACHED" },
    source := "wiktionary", cached := false }

/-- A Wiktionary entry that would be visible if the adapter were consulted. -/
def c8Wik : WikEntryM :=
  { word := "hello", language := "en", definitions := [],
    etymology := some "From WIKTIONARY", pronunciations := none }

/-- **C8 witness.** `getFullEtymology("Hello","en")` resolves from the
embedded entry for "hello" even with a populated cache, a Wiktionary result,
and an AI oracle all available, and logs no external operation. -/
theorem getFullEtymology_dictionary_tier_witness :
    getEtymologyDict CORE_DICTIONARY (jsNormalize "Hello") = some helloEtymData ∧
    getFullEtymology CORE_DICTIONARY "Hello" "en"
        (some fun _ => some c8Cached) (fun _ => some c8Wik)
        (fun _ _ => { origin := "PARSED" }) (some fun _ => some { origin := "AI" }) =
      ({ word := jsNormalize "Hello", language := "en", etymology := helloEtymData,
         definitions := none, pronunciations := none,
         source := "dictionary", cached := false }, emptyLog) :=
  ⟨by decide,
   getFullEtymology_dictionary_tier CORE_DICTIONARY "Hello" "en"
     (some fun _ => some c8Cached) (fun _ => some c8Wik)
     (fun _ _ => { origin := "PARSED" }) (some fun _ => some { origin := "AI" })
     helloEtymData (by decide)⟩

/-- **C6.** Batch-size gating of `bulkUploadWords`: when the selected tier is
not `unlimited` and its cap is below the batch length, the whole batch is
rejected before any mutation — the state is returned unchanged and the result
is `success=false`, `added=0` with the descriptive size error; otherwise the
batch proceeds to the per-item processing stage. -/
theorem bulkUploadWords_size_gate (st : LWState) (now : String) (items : List BulkItem)
    (opts : BulkOpts) (fail : Nat → Option String) :
    (∀ cap, tierCap (opts.tier.getD .medium) = some cap →
       opts.tier.getD .medium ≠ .unlimited → cap < items.length →
       bulkUploadWords st now items opts fail =
         (st, { success := false, added := 0, updated := 0, skipped := 0,
                errors := [⟨"", bulkSizeMsg items.length cap⟩],
                pendingCount := 0, shouldTriggerPR := false,
                prThreshold := st.config.prThreshold })) ∧
    (bulkSizeExceeded items.length (opts.tier.getD .medium) = false →
       bulkUploadWords st now items opts fail = bulkAfterGate st now items opts fail) := by
  constructor
  · intro cap hcap hne hlt
    have hx : bulkSizeExceeded items.length (opts.tier.getD .medium) = true := by
      simp [bulkSizeExceeded, hcap, hlt, hne]
    simp [bulkUploadWords, hx, hcap, getConfig]
  · intro hx
    simp [bulkUploadWords, hx]

/-- A well-formed bulk item for the C6 witness. -/
def c6Item : BulkItem :=
  { word := "hello", translations := fun l => if l = "es" then some "hola" else none }

/-- Fresh ledger state for the C6 witness. -/
def c6St : LWState :=
  { words := fun _ => none, queue := [], stats := ⟨0, 0, none, none, false⟩,
    config := DEFAULT_CONFIG }

/-- **C6 witness.** Against tier `small` (cap 100), a batch of 101 items is
rejected whole — state unchanged, `success=false`, `added=0`, message
"Batch size 101 exceeds tier limit of 100" — while a batch of 100 items
passes the gate and is processed. -/
theorem bulkUploadWords_size_gate_witness :
    tierCap ((some BulkTier.small).getD .medium) = some 100 ∧
    (some BulkTier.small).getD .medium ≠ .unlimited ∧
    100 < (List.replicate 101 c6Item).length ∧
    bulkUploadWords c6St "t0" (List.replicate 101 c6Item) { tier := some .small }
        (fun _ => none) =
      (c6St, { success := false, added := 0, updated := 0, skipped := 0,
               errors := [⟨"", bulkSizeMsg 101 100⟩],
               pendingCount := 0, shouldTriggerPR := false,
               prThreshold := c6St.config.prThreshold }) ∧
    bulkSizeExceeded (List.replicate 100 c6Item).length
        ((some BulkTier.small).getD .medium) = false ∧
    bulkUploadWords c6St "t0" (List.replicate 100 c6Item) { tier := some .small }
        (fun _ => none) =
      bulkAfterGate c6St "t0" (List.replicate 100 c6Item) { tier := some .small }
        (fun _ => none) := by
  refine ⟨by decide, by decide, by decide, ?_, by decide, ?_⟩
  · exact (bulkUploadWords_size_gate c6St "t0" (List.replicate 101 c6Item)
      { tier := some .small } (fun _ => none)).1 100 (by decide) (by decide) (by decide)
  · exact (bulkUploadWords_size_gate c6St "t0" (List.replicate 100 c6Item)
      { tier := some .small } (fun _ => none)).2 (by decide)

/-- The two output lists of `translateWords` are the per-token hits and
misses, in input order. -/
theorem translateWords_spec (dict : DictTable) (ws : List String) (lang : String) :
    (translateWords dict ws lang).1 = ws.filterMap (fun w => translateWord dict w lang) ∧
    (translateWords dict ws lang).2 =
      ws.filter (fun w => (translateWord dict w lang).isNone) := by
  induction ws with
  | nil => simp [translateWords]
  | cons w rest ih =>
    cases h : translateWord dict w lang with
    | some t => simp [translateWords, h, ih.1, ih.2]
    | none => simp [translateWords, h, ih.1, ih.2]

/-- Hits and misses of a per-token resolution partition the token list. -/
theorem filterMap_isNone_length {α β : Type} (f : α → Option β) (ws : List α) :
    (ws.filterMap f).length + (ws.filter (fun w => (f w).isNone)).length = ws.length := by
  induction ws with
  | nil => rfl
  | cons w rest ih => cases h : f w <;> simp [h] <;> omega

/-- **C7.** For a request of at most 10 tokens with source language "en" or
"auto", the whole-text dictionary stage yields a result exactly when every
token resolves in the dictionary for the target language (all-or-nothing),
and any result it yields carries `source = "dictionary"` with the per-token
dictionary translations joined in order. -/
theorem dictStage_all_or_nothing (dict : DictTable) (nt : String) (ws : List String)
    (fromL toL : String) (hlen : ws.length ≤ 10) (hfrom : fromL = "en" ∨ fromL = "auto") :
    ((dictStage dict nt ws fromL toL).isSome =
       ws.all (fun w => (translateWord dict w toL).isSome)) ∧
    (∀ r, dictStage dict nt ws fromL toL = some r →
       r.source = some "dictionary" ∧
       r.translated = String.intercalate " "
         ((ws.filterMap (fun w => translateWord dict w toL)).map (·.translated))) := by
  have hs := translateWords_spec dict ws toL
  have hnf : ((translateWords dict ws toL).2 = [] ↔
      ws.all (fun w => (translateWord dict w toL).isSome) = true) := by
    rw [hs.2, List.filter_eq_nil_iff]
    simp [List.all_eq_true, Option.isNone_iff_eq_none, Option.isSome_iff_ne_none]
  have hlen2 : (translateWords dict ws toL).2 = [] →
      (translateWords dict ws toL).1.length = ws.length := by
    intro h2
    have hsum := filterMap_isNone_length (fun w => translateWord dict w toL) ws
    rw [← hs.1, ← hs.2, h2] at hsum
    simpa using hsum
  constructor
  · by_cases hq : (translateWords dict ws toL).2 = []
    · rw [dictStage, if_pos ⟨hlen, hfrom⟩]
      rw [if_pos ⟨hq, hlen2 hq⟩]
      simp [hnf.mp hq]
    · rw [dictStage, if_pos ⟨hlen, hfrom⟩]
      rw [if_neg (fun hc => hq hc.1)]
      simp only [Option.isSome_none]
      rw [eq_comm, Bool.eq_false_iff]
      intro hall
      exact hq (hnf.mpr hall)
  · intro r hr
    rw [dictStage, if_pos ⟨hlen, hfrom⟩] at hr
    by_cases hq : ((translateWords dict ws toL).2 = [] ∧
        (translateWords dict ws toL).1.length = ws.length)
    · rw [if_pos hq] at hr
      cases hr
      exact ⟨rfl, by rw [hs.1]⟩
    · rw [if_neg hq] at hr
      cases hr

/-- **C7 witness.** Tokens ["hello","yes"] (2 ≤ 10, source "en") all resolve
for "es", so the stage yields a dictionary result, and its text is the joined
per-token translations "hola sí"; swapping in the unknown token "zzz"
produces no dictionary result. -/
theorem dictStage_all_or_nothing_witness :
    (["hello", "yes"] : List String).length ≤ 10 ∧
    ("en" = "en" ∨ "en" = "auto") ∧
    (dictStage CORE_DICTIONARY "hello yes" ["hello", "yes"] "en" "es").isSome =
      (["hello", "yes"].all fun w => (translateWord CORE_DICTIONARY w "es").isSome) ∧
    ((dictStage CORE_DICTIONARY "hello yes" ["hello", "yes"] "en" "es").map
      (·.translated)) = some "hola sí" ∧
    (dictStage CORE_DICTIONARY "hello zzz" ["hello", "zzz"] "en" "es").isSome =
      (["hello", "zzz"].all fun w => (translateWord CORE_DICTIONARY w "es").isSome) ∧
    (dictStage CORE_DICTIONARY "hello zzz" ["hello", "zzz"] "en" "es") = none :=
  ⟨by decide, Or.inl rfl,
   (dictStage_all_or_nothing CORE_DICTIONARY "hello yes" ["hello", "yes"] "en" "es"
     (by decide) (Or.inl rfl)).1,
   by decide,
   (dictStage_all_or_nothing CORE_DICTIONARY "hello zzz" ["hello", "zzz"] "en" "es"
     (by decide) (Or.inl rfl)).1,
   by decide⟩

/-- Consuming the tail of a tag match shortens the input. -/
theorem tagScan_length : ∀ {l l' : List Char}, tagScan l = some l' → l'.length < l.length := by
  intro l
  induction l with
  | nil => intro l' h; cases h
  | cons c rest ih =>
    intro l' h
    rw [tagScan] at h
    split at h
    · cases h
      simp
    · have := ih h
      simp
      omega

/-- A tag match `<[^>]+>` spans at least two characters past the `<`. -/
theorem tagEnd_length {l l' : List Char} (h : tagEnd l = some l') :
    l'.length + 2 ≤ l.length := by
  cases l with
  | nil => cases h
  | cons c rest =>
    rw [tagEnd] at h
    split at h
    · cases h
    · have := tagScan_length h
      simp
      omega

/-- A stripping pass never lengthens the string, and a pass that preserves the
length changed nothing. -/
theorem stripOnceFuel_spec : ∀ (n : Nat) (l : List Char), l.length ≤ n →
    (stripOnceFuel n l).length ≤ l.length ∧
    ((stripOnceFuel n l).length = l.length → stripOnceFuel n l = l) := by
  intro n
  induction n with
  | zero =>
    intro l hl
    have : l = [] := List.length_eq_zero.mp (Nat.le_zero.mp hl)
    subst this
    exact ⟨le_rfl, fun _ => rfl⟩
  | succ n ih =>
    intro l hl
    cases l with
    | nil => exact ⟨le_rfl, fun _ => rfl⟩
    | cons c rest =>
      have hr : rest.length ≤ n := by simpa using hl
      simp only [stripOnceFuel]
      by_cases hc : c = '<'
      · rw [if_pos hc]
        cases ht : tagEnd rest with
        | some rest' =>
          have h2 := tagEnd_length ht
          have h3 : rest'.length ≤ n := by omega
          have h4 := (ih rest' h3).1
          constructor
          · simp; omega
          · intro heq
            exfalso
            simp at heq
            omega
        | none =>
          have h4 := ih rest hr
          constructor
          · simp; omega
          · intro heq
            simp at heq
            rw [h4.2 heq]
      · rw [if_neg hc]
        have h4 := ih rest hr
        constructor
        · simp; omega
        · intro heq
          simp at heq
          rw [h4.2 heq]

/-- One pass of the tag-stripping replace never lengthens the string. -/
theorem stripTagsOnce_le (l : List Char) : (stripTagsOnce l).length ≤ l.length :=
  (stripOnceFuel_spec l.length l le_rfl).1

/-- Every pass that changes the string strictly shortens it (the measure that
makes the do-while of `removeHtmlTags` terminate). -/
theorem stripTagsOnce_lt_of_ne {l : List Char} (h : stripTagsOnce l ≠ l) :
    (stripTagsOnce l).length < l.length := by
  rcases Nat.lt_or_ge (stripTagsOnce l).length l.length with h1 | h1
  · exact h1
  · exact absurd ((stripOnceFuel_spec l.length l le_rfl).2
      (Nat.le_antisymm (stripTagsOnce_le l) h1)) h

/-- With fuel exceeding the string length, the stripping loop reaches a fixed
point of the pass. -/
theorem stripLoopFuel_fix : ∀ (n : Nat) (l : List Char), l.length < n →
    stripTagsOnce (stripLoopFuel n l) = stripLoopFuel n l := by
  intro n
  induction n with
  | zero => intro l hl; omega
  | succ n ih =>
    intro l hl
    simp only [stripLoopFuel]
    by_cases he : stripTagsOnce l = l
    · rw [if_pos he, he]
    · rw [if_neg he]
      exact ih _ (by have := stripTagsOnce_lt_of_ne he; omega)

/-- Whitespace collapsing introduces no character but the space. -/
theorem collapseWs_mem : ∀ (l : List Char) (c : Char), c ∈ collapseWs l → c ∈ l ∨ c = ' ' := by
  intro l
  induction l with
  | nil => intro c hc; cases hc
  | cons a rest ih =>
    cases rest with
    | nil =>
      intro c hc
      by_cases ha : isJsWs a
      · simp [collapseWs, ha] at hc
        exact Or.inr hc
      · simp [collapseWs, ha] at hc
        simp [hc]
    | cons b rest2 =>
      intro c hc
      rw [collapseWs] at hc
      split at hc
      · rcases ih c hc with h | h
        · exact Or.inl (List.mem_cons_of_mem _ h)
        · exact Or.inr h
      · rcases List.mem_cons.mp hc with h | h
        · subst h
          split
          · exact Or.inr rfl
          · exact Or.inl (List.mem_cons_self _ _)
        · rcases ih c h with h2 | h2
          · exact Or.inl (List.mem_cons_of_mem _ h2)
          · exact Or.inr h2

/-- Trimming introduces no character. -/
theorem trimWs_subset (l : List Char) (c : Char) (hc : c ∈ trimWs l) : c ∈ l := by
  unfold trimWs dropWs at hc
  rw [List.mem_reverse] at hc
  have h1 := (List.dropWhile_sublist (l := (l.dropWhile isJsWs).reverse) isJsWs).mem hc
  rw [List.mem_reverse] at h1
  exact (List.dropWhile_sublist isJsWs).mem h1

/-- **C9.** The markup cleaning terminates and is complete: every
tag-stripping pass that changes the string strictly shortens it, the
`removeHtmlTags` loop reaches a fixed point of the pass, and the final output
of `cleanWikiMarkup` contains no `<` or `>` character — even for nested or
overlapping tag patterns that a single pass would leave behind. -/
theorem cleanWikiMarkup_terminates_and_safe (s : String) (t : List Char)
    (h : stripTagsOnce t ≠ t) :
    (stripTagsOnce t).length < t.length ∧
    stripTagsOnce (removeHtmlTagsList s.data) = removeHtmlTagsList s.data ∧
    ∀ c ∈ (cleanWikiMarkup s).data, c ≠ '<' ∧ c ≠ '>' := by
  refine ⟨stripTagsOnce_lt_of_ne h, stripLoopFuel_fix _ _ (by omega), ?_⟩
  intro c hc
  by_cases hs : s = ""
  · rw [cleanWikiMarkup, if_pos hs] at hc
    cases hc
  · simp only [cleanWikiMarkup, if_neg hs] at hc
    have h1 := trimWs_subset _ _ hc
    rcases collapseWs_mem _ _ h1 with h2 | h2
    · rw [stripAngles, List.mem_filter] at h2
      have h3 := h2.2
      constructor <;> intro heq <;> simp [heq] at h3
    · subst h2
      exact ⟨by decide, by decide⟩

/-- **C9 witness.** The nested input `"<i>x"` is changed (and strictly
shortened) by one pass; on `"a <b>c"` the loop's output is a fixed point and
the cleaned text has no angle brackets. -/
theorem cleanWikiMarkup_terminates_and_safe_witness :
    stripTagsOnce ("<i>x".data) ≠ "<i>x".data ∧
    (stripTagsOnce ("<i>x".data)).length < ("<i>x".data).length ∧
    stripTagsOnce (removeHtmlTagsList ("a <b>c".data)) = removeHtmlTagsList ("a <b>c".data) ∧
    ∀ c ∈ (cleanWikiMarkup "a <b>c").data, c ≠ '<' ∧ c ≠ '>' :=
  ⟨by decide, cleanWikiMarkup_terminates_and_safe "a <b>c" ("<i>x".data) (by decide)⟩

/-- One bulk-loop step accounts for its item in exactly one counter, and adds
an error only when the item is valid and its KV access threw. -/
theorem bulkStep_cases (opts : BulkOpts) (now : String) (fail : Nat → Option String)
    (i : Nat) (item : BulkItem) (acc : BulkAcc) :
    ((bulkStep opts now fail i item acc).added + (bulkStep opts now fail i item acc).updated +
     (bulkStep opts now fail i item acc).skipped +
     (bulkStep opts now fail i item acc).errors.length =
       acc.added + acc.updated + acc.skipped + acc.errors.length + 1) ∧
    ((bulkStep opts now fail i item acc).errors = acc.errors ∨
      (bulkWordValid item.word = true ∧ ∃ msg, fail i = some msg ∧
        (bulkStep opts now fail i item acc).errors = acc.errors ++ [⟨item.word, msg⟩])) := by
  unfold bulkStep
  by_cases hv : bulkWordValid item.word
  · rw [if_neg (by simp [hv])]
    cases hf : fail i with
    | some msg =>
      refine ⟨by simp; omega, Or.inr ⟨hv, msg, rfl, by simp⟩⟩
    | none =>
      cases hw : acc.st.words (jsNormalize item.word) with
      | some existing =>
        by_cases hd : opts.skipDuplicates.getD false = true
        · refine ⟨by simp [hd]; omega, Or.inl (by simp [hd])⟩
        · refine ⟨by simp [hd]; omega, Or.inl (by simp [hd])⟩
      | none =>
        refine ⟨by simp; omega, Or.inl (by simp)⟩
  · rw [if_pos (by simp [hv])]
    refine ⟨by simp; omega, Or.inl rfl⟩

/-- Loop invariant of the bulk processing: full accounting of the counters,
provenance of every error (a KV fault on a valid item), and no errors when no
KV access throws. -/
theorem bulkLoop_spec (opts : BulkOpts) (now : String) (fail : Nat → Option String) :
    ∀ (items : List BulkItem) (i : Nat) (acc : BulkAcc),
    ((bulkLoop opts now fail items i acc).added + (bulkLoop opts now fail items i acc).updated +
     (bulkLoop opts now fail items i acc).skipped +
     (bulkLoop opts now fail items i acc).errors.length =
       acc.added + acc.updated + acc.skipped + acc.errors.length + items.length) ∧
    (∀ e ∈ (bulkLoop opts now fail items i acc).errors, e ∈ acc.errors ∨
       ∃ k item, items.get? k = some item ∧ fail (i + k) = some e.error ∧
         e.word = item.word ∧ bulkWordValid item.word = true) ∧
    ((∀ k, k < items.length → fail (i + k) = none) →
       (bulkLoop opts now fail items i acc).errors = acc.errors) := by
  intro items
  induction items with
  | nil =>
    intro i acc
    refine ⟨by simp [bulkLoop], ?_, fun _ => rfl⟩
    intro e he
    exact Or.inl he
  | cons item rest ih =>
    intro i acc
    rw [bulkLoop]
    have hstep := bulkStep_cases opts now fail i item acc
    have hrest := ih (i + 1) (bulkStep opts now fail i item acc)
    refine ⟨by have h1 := hrest.1; have h2 := hstep.1; simp only [List.length_cons]; omega,
      ?_, ?_⟩
    · intro e he
      rcases hrest.2.1 e he with h1 | ⟨k, item', hk, hf, hw, hv⟩
      · rcases hstep.2 with h2 | ⟨hv, msg, hf, h2⟩
        · rw [h2] at h1
          exact Or.inl h1
        · rw [h2] at h1
          rcases List.mem_append.mp h1 with h3 | h3
          · exact Or.inl h3
          · have he2 : e = ⟨item.word, msg⟩ := by simpa using h3
            refine Or.inr ⟨0, item, rfl, ?_, ?_, hv⟩
            · rw [Nat.add_zero, he2]
              exact hf
            · rw [he2]
      · refine Or.inr ⟨k + 1, item', by simpa using hk, ?_, hw, hv⟩
        rw [show i + (k + 1) = i + 1 + k by omega]
        exact hf
    · intro hnone
      have h0 : fail i = none := by
        have := hnone 0 (by simp)
        simpa using this
      have hacc : (bulkStep opts now fail i item acc).errors = acc.errors := by
        rcases hstep.2 with h2 | ⟨_, msg, hf, _⟩
        · exact h2
        · rw [h0] at hf
          cases hf
      rw [hrest.2.2 ?_, hacc]
      intro k hk
      rw [show i + 1 + k = i + (k + 1) by omega]
      exact hnone (k + 1) (by simp; omega)

/-- **C10.** For every batch that passes the size-tier check,
`bulkUploadWords` reports `success = true` exactly when its per-item error
list is empty; every error stems from a KV fault on a *valid* item (so items
skipped by validation or deduplication never appear in `errors`); the four
counters fully account for the batch; and with no KV faults the error list is
empty — hence a batch in which every item is skipped still reports success. -/
theorem bulkUploadWords_success_iff (st : LWState) (now : String) (items : List BulkItem)
    (opts : BulkOpts) (fail : Nat → Option String)
    (hsz : bulkSizeExceeded items.length (opts.tier.getD .medium) = false) :
    ((bulkUploadWords st now items opts fail).2.success = true ↔
       (bulkUploadWords st now items opts fail).2.errors = []) ∧
    (∀ e ∈ (bulkUploadWords st now items opts fail).2.errors,
       ∃ k item, items.get? k = some item ∧ fail k = some e.error ∧
         e.word = item.word ∧ bulkWordValid item.word = true) ∧
    ((bulkUploadWords st now items opts fail).2.added +
       (bulkUploadWords st now items opts fail).2.updated +
       (bulkUploadWords st now items opts fail).2.skipped +
       (bulkUploadWords st now items opts fail).2.errors.length = items.length) ∧
    ((∀ k, k < items.length → fail k = none) →
       (bulkUploadWords st now items opts fail).2.errors = []) := by
  have hg : bulkUploadWords st now items opts fail = bulkAfterGate st now items opts fail := by
    simp [bulkUploadWords, hsz]
  rw [hg]
  simp only [bulkAfterGate]
  have hl := bulkLoop_spec opts now fail items 0 ⟨st, 0, 0, 0, []⟩
  refine ⟨List.isEmpty_iff, ?_, ?_, ?_⟩
  · intro e he
    rcases hl.2.1 e he with h1 | ⟨k, item, hk, hf, hw, hv⟩
    · cases h1
    · exact ⟨k, item, hk, by simpa using hf, hw, hv⟩
  · have := hl.1
    simpa using this
  · intro hnone
    apply hl.2.2
    intro k hk
    simpa using hnone k hk

/-- An already-recorded word for the C10 witness. -/
def c10Rec : LearnedWordR :=
  { word := "casa", sourceLanguage := "en",
    translations := fun l => if l = "es" then some "casa" else none,
    detectedPos := none, firstSeen := "t0", seenCount := 1, lastSeen := "t0",
    confidence := 8/10, contexts := none, source := some "ai" }

/-- Ledger state for the C10 witness. -/
def c10St : LWState :=
  { words := fun k => if k = "casa" then some c10Rec else none,
    queue := ["casa"], stats := ⟨1, 0, none, none, false⟩,
    config := DEFAULT_CONFIG }

/-- The C10 witness batch: one item skipped by length validation ("x"), one
skipped as a duplicate under `skipDuplicates`. -/
def c10Items : List BulkItem :=
  [{ word := "x", translations := fun _ => none },
   { word := "casa", translations := fun l => if l = "es" then some "house" else none }]

/-- **C10 witness.** A batch whose every item is skipped (one by validation,
one by deduplication) still reports `success = true` with `errors = []` and
`skipped = 2`. -/
theorem bulkUploadWords_success_iff_witness :
    bulkSizeExceeded c10Items.length
        (({ skipDuplicates := some true } : BulkOpts).tier.getD .medium) = false ∧
    ((bulkUploadWords c10St "t1" c10Items { skipDuplicates := some true }
        (fun _ => none)).2.success = true ↔
      (bulkUploadWords c10St "t1" c10Items { skipDuplicates := some true }
        (fun _ => none)).2.errors = []) ∧
    (bulkUploadWords c10St "t1" c10Items { skipDuplicates := some true }
        (fun _ => none)).2 =
      { success := true, added := 0, updated := 0, skipped := 2, errors := [],
        pendingCount := 0, shouldTriggerPR := false, prThreshold := 10 } :=
  ⟨by decide,
   (bulkUploadWords_success_iff c10St "t1" c10Items { skipDuplicates := some true }
     (fun _ => none) (by decide)).1,
   by decide⟩

/-- A singleton batch never exceeds any tier cap. -/
theorem bulkSizeExceeded_one (t : BulkTier) : bulkSizeExceeded 1 t = false := by
  cases t <;> rfl

/-- **C4** (amended). On a repeat sighting of a recorded word, both paths
overwrite same-language translation keys with the incoming values and
increment `seenCount` by one; but only `storeLearnedWord` recomputes
confidence as `min((existing + incoming)/2, 1)` (incoming defaulting to 0.7),
which for confidences in [0,1] stays in [0,1] and, when the existing value is
at most the incoming one, moves toward it without ever exceeding it.
`bulkUploadWords` instead *overwrites* the confidence with the incoming value
when it is present and non-zero and keeps the existing one otherwise — it
does not average (see the counterexample). -/
theorem merge_rules (st : LWState) (now w : String) (tr : String → Option String)
    (opts : StoreOpts) (bopts : BulkOpts) (item : BulkItem) (e : LearnedWordR)
    (h : st.words (jsNormalize w) = some e)
    (hb : jsNormalize item.word = jsNormalize w)
    (hvalid : bulkWordValid item.word = true)
    (hdup : bopts.skipDuplicates.getD false = false)
    (hc0 : 0 ≤ e.confidence) (hc1 : e.confidence ≤ 1)
    (hi0 : 0 ≤ jsOrQ opts.confidence (7/10)) (hi1 : jsOrQ opts.confidence (7/10) ≤ 1) :
    (∃ u, ((storeLearnedWord st now w tr opts).1).words (jsNormalize w) = some u ∧
       u.seenCount = e.seenCount + 1 ∧
       (∀ k v, tr k = some v → u.translations k = some v) ∧
       (∀ k, tr k = none → u.translations k = e.translations k) ∧
       u.confidence = min ((e.confidence + jsOrQ opts.confidence (7/10)) / 2) 1 ∧
       0 ≤ u.confidence ∧ u.confidence ≤ 1 ∧
       (e.confidence ≤ jsOrQ opts.confidence (7/10) →
         e.confidence ≤ u.confidence ∧ u.confidence ≤ jsOrQ opts.confidence (7/10))) ∧
    (∃ u, ((bulkUploadWords st now [item] bopts (fun _ => none)).1).words (jsNormalize w) = some u ∧
       u.seenCount = e.seenCount + 1 ∧
       (∀ k v, item.translations k = some v → u.translations k = some v) ∧
       (∀ k, item.translations k = none → u.translations k = e.translations k) ∧
       u.confidence = jsOrQ item.confidence e.confidence) := by
  constructor
  · have hst : ((storeLearnedWord st now w tr opts).1).words (jsNormalize w) =
        some { e with
          translations := mergeTranslations e.translations tr,
          seenCount := e.seenCount + 1,
          lastSeen := now,
          confidence := min ((e.confidence + jsOrQ opts.confidence (7/10)) / 2) 1,
          contexts :=
            if jsStrTruthy opts.context then
              some (takeLast 4 (e.contexts.getD []) ++ [opts.context.getD ""])
            else e.contexts } := by
      simp [storeLearnedWord, h, putWord]
    refine ⟨_, hst, rfl, ?_, ?_, rfl, ?_, ?_, ?_⟩
    · intro k v hk
      simp [mergeTranslations, hk]
    · intro k hk
      simp [mergeTranslations, hk]
    · exact le_min (by linarith) (by norm_num)
    · exact min_le_right _ _
    · intro hle
      refine ⟨le_min (by linarith) hc1, (min_le_left _ _).trans (by linarith)⟩
  · have hgate := bulkSizeExceeded_one (bopts.tier.getD .medium)
    have hrun : ((bulkUploadWords st now [item] bopts (fun _ => none)).1).words
        (jsNormalize w) =
        some { e with
          translations := mergeTranslations e.translations item.translations,
          seenCount := e.seenCount + 1,
          lastSeen := now,
          confidence := jsOrQ item.confidence e.confidence } := by
      simp [bulkUploadWords, hgate, bulkAfterGate, bulkLoop, bulkStep, hvalid, hdup,
        hb, h, putWord]
    refine ⟨_, hrun, rfl, ?_, ?_, rfl⟩
    · intro k v hk
      simp [mergeTranslations, hk]
    · intro k hk
      simp [mergeTranslations, hk]

/-- Existing record for the C4 witness: confidence 0.5. -/
def c4Rec : LearnedWordR :=
  { word := "casa", sourceLanguage := "en",
    translations := fun l => if l = "es" then some "old" else none,
    detectedPos := none, firstSeen := "t0", seenCount := 1, lastSeen := "t0",
    confidence := 1/2, contexts := none, source := some "ai" }

/-- Ledger state for the C4 witness. -/
def c4St : LWState :=
  { words := fun k => if k = "casa" then some c4Rec else none,
    queue := ["casa"], stats := ⟨1, 1, none, none, false⟩,
    config := DEFAULT_CONFIG }

/-- Incoming bulk item for the C4 witness: confidence 0.9. -/
def c4Item : BulkItem :=
  { word := "casa", translations := fun l => if l = "es" then some "house" else none,
    confidence := some (9/10) }

/-- Incoming translations for the C4 witness store path. -/
def c4Tr : String → Option String := fun l => if l = "es" then some "house" else none

/-- Store options for the C4 witness: incoming confidence 0.9. -/
def c4Opts : StoreOpts := { confidence := some (9/10) }

/-- **C4 witness.** Re-sighting "casa" (existing confidence 0.5, incoming
0.9) through both paths: the store path averages to 0.7, the bulk path
overwrites to 0.9, and both bump `seenCount` and overwrite the "es" key. -/
theorem merge_rules_witness :
    c4St.words (jsNormalize "casa") = some c4Rec ∧
    jsNormalize c4Item.word = jsNormalize "casa" ∧
    bulkWordValid c4Item.word = true ∧
    ({} : BulkOpts).skipDuplicates.getD false = false ∧
    0 ≤ c4Rec.confidence ∧ c4Rec.confidence ≤ 1 ∧
    0 ≤ jsOrQ c4Opts.confidence (7/10) ∧ jsOrQ c4Opts.confidence (7/10) ≤ 1 ∧
    ((∃ u, ((storeLearnedWord c4St "t1" "casa" c4Tr c4Opts).1).words (jsNormalize "casa") = some u ∧
       u.seenCount = c4Rec.seenCount + 1 ∧
       (∀ k v, c4Tr k = some v → u.translations k = some v) ∧
       (∀ k, c4Tr k = none → u.translations k = c4Rec.translations k) ∧
       u.confidence = min ((c4Rec.confidence + jsOrQ c4Opts.confidence (7/10)) / 2) 1 ∧
       0 ≤ u.confidence ∧ u.confidence ≤ 1 ∧
       (c4Rec.confidence ≤ jsOrQ c4Opts.confidence (7/10) →
         c4Rec.confidence ≤ u.confidence ∧ u.confidence ≤ jsOrQ c4Opts.confidence (7/10))) ∧
     (∃ u, ((bulkUploadWords c4St "t1" [c4Item] {} (fun _ => none)).1).words (jsNormalize "casa") = some u ∧
       u.seenCount = c4Rec.seenCount + 1 ∧
       (∀ k v, c4Item.translations k = some v → u.translations k = some v) ∧
       (∀ k, c4Item.translations k = none → u.translations k = c4Rec.translations k) ∧
       u.confidence = jsOrQ c4Item.confidence c4Rec.confidence)) :=
  ⟨rfl, rfl, by decide, rfl,
   by norm_num [c4Rec], by norm_num [c4Rec],
   by norm_num [jsOrQ, c4Opts], by norm_num [jsOrQ, c4Opts],
   merge_rules c4St "t1" "casa" c4Tr c4Opts {} c4Item c4Rec rfl rfl (by decide) rfl
     (by norm_num [c4Rec]) (by norm_num [c4Rec])
     (by norm_num [jsOrQ, c4Opts]) (by norm_num [jsOrQ, c4Opts])⟩

/-- Existing record for the C4 counterexample: confidence 0.5. -/
def c4bRec : LearnedWordR :=
  { word := "casa", sourceLanguage := "en",
    translations := fun l => if l = "es" then some "old" else none,
    detectedPos := none, firstSeen := "t0", seenCount := 1, lastSeen := "t0",
    confidence := 1/2, contexts := none, source := some "ai" }

/-- Ledger state for the C4 counterexample. -/
def c4bSt : LWState :=
  { words := fun k => if k = "casa" then some c4bRec else none,
    queue := ["casa"], stats := ⟨1, 1, none, none, false⟩,
    config := DEFAULT_CONFIG }

/-- Incoming bulk item for the C4 counterexample: confidence 0.9. -/
def c4bItem : BulkItem :=
  { word := "casa", translations := fun l => if l = "es" then some "house" else none,
    confidence := some (9/10) }

/-- **C4 counterexample.** Re-sighting "casa" (existing confidence 0.5)
through `bulkUploadWords` with incoming confidence 0.9 stores confidence 0.9,
while the claimed merge rule `min((0.5+0.9)/2, 1)` gives 0.7 ≠ 0.9: the bulk
path does not average. -/
theorem bulk_merge_confidence_cx :
    ((bulkUploadWords c4bSt "t1" [c4bItem] {} (fun _ => none)).1.words "casa").map
        (·.confidence) = some ((9:ℚ)/10) ∧
    min ((c4bRec.confidence + (9:ℚ)/10) / 2) 1 = 7/10 ∧
    ((9:ℚ)/10) ≠ 7/10 := by
  have h9 : ¬((9:ℚ)/10 = 0) := by norm_num
  refine ⟨?_, ?_, by norm_num⟩
  · simp [bulkUploadWords, bulkSizeExceeded, tierCap, bulkAfterGate, bulkLoop, bulkStep,
      c4bSt, c4bItem, c4bRec, putWord, jsOrQ, h9,
      show jsNormalize "casa" = "casa" from rfl,
      show bulkWordValid "casa" = true from rfl]
  · rw [show ((c4bRec.confidence + (9:ℚ)/10) / 2) = 7/10 by norm_num [c4bRec]]
    rw [min_eq_left (by norm_num)]
